import Mathlib

/-!
# Verification of the wire header framer (`wire_header_1_0.rs`)

Shallow embedding of `WireHeader::write_to_stream` and
`WireHeader::read_from_stream` from
`src/requests/common/wire_header_1_0.rs`.

Modelling choices:
* A byte stream is a `List Nat` whose elements are below 256 (`ValidBytes`).
  Reading `n` bytes succeeds exactly when at least `n` bytes remain
  (the `read_exact` contract); otherwise the read fails and, through the
  `?` conversion in the source, surfaces as `ConnectionError`.
* Machine integers are `Nat` with explicit bounds; multi-byte integers on
  the wire are little-endian fixed width, which is what `bincode` with its
  default configuration produces for the `u8/u16/u32/u64` fields of
  `WireHeader` and what `<ty>::from_le_bytes` in `get_from_stream!` reads.
* The output capability (`W: Write`) is a `Sink` with an optional remaining
  capacity: `write_all` succeeds on an unbounded sink, and on a bounded sink
  exactly when the chunk fits, failing with `ConnectionError` otherwise
  (the `?` conversion of an `std::io::Error` in the source).
* The two `bytes.remove(0)` calls in the source panic on an empty vector;
  the embedding makes the panic an explicit `DecodeResult.panic` outcome so
  panic freedom is a provable statement.
-/

/-- Modelled from the spec: the shared protocol-family magic number
`MAGIC_NUMBER` is defined outside this module (`crate::requests::common`);
the spec fixes only that it is a 32-bit constant independent of the
version, so one concrete 32-bit value is chosen here. -/
def MAGIC_NUMBER : Nat := 0x5EC0A710

/-- `const WIRE_PROTOCOL_VERSION_MAJ: u8 = 1;` -/
def WIRE_PROTOCOL_VERSION_MAJ : Nat := 1

/-- `const WIRE_PROTOCOL_VERSION_MIN: u8 = 0;` -/
def WIRE_PROTOCOL_VERSION_MIN : Nat := 0

/-- `const REQUEST_HDR_SIZE: u16 = 24;` -/
def REQUEST_HDR_SIZE : Nat := 24

/-- Modelled from the spec: the four variants of the shared error taxonomy
(`ResponseStatus`, defined in `crate::requests`) that this component
produces. -/
inductive ResponseStatus where
  | InvalidHeader
  | ConnectionError
  | InvalidEncoding
  | WireProtocolVersionNotSupported
deriving DecidableEq, Repr

/-- `pub struct WireHeader`: the nine raw header fields.  Machine widths are
recorded by `WireHeader.Valid` below. -/
structure WireHeader where
  provider : Nat
  session : Nat
  content_type : Nat
  accept_type : Nat
  auth_type : Nat
  body_len : Nat
  auth_len : Nat
  opcode : Nat
  status : Nat
deriving DecidableEq, Repr

/-- The field bounds imposed by the Rust machine types
(`u8`, `u64`, `u8`, `u8`, `u8`, `u32`, `u16`, `u16`, `u16`). -/
def WireHeader.Valid (h : WireHeader) : Prop :=
  h.provider < 2 ^ 8 ∧ h.session < 2 ^ 64 ∧ h.content_type < 2 ^ 8 ∧
    h.accept_type < 2 ^ 8 ∧ h.auth_type < 2 ^ 8 ∧ h.body_len < 2 ^ 32 ∧
    h.auth_len < 2 ^ 16 ∧ h.opcode < 2 ^ 16 ∧ h.status < 2 ^ 16

instance (h : WireHeader) : Decidable h.Valid := by
  unfold WireHeader.Valid; infer_instance

/-- A stream/buffer of bytes: every element fits in a `u8`. -/
def ValidBytes (s : List Nat) : Prop := ∀ b ∈ s, b < 256

instance (s : List Nat) : Decidable (ValidBytes s) := by
  unfold ValidBytes; infer_instance

/-- Little-endian value of a byte list (what `from_le_bytes` /
`bincode::deserialize` compute for a fixed-width unsigned integer). -/
def leToNat : List Nat → Nat
  | [] => 0
  | b :: bs => b + 256 * leToNat bs

/-- `w`-byte little-endian encoding of `n` (what `bincode::serialize`
emits for a fixed-width unsigned integer). -/
def natToLe : Nat → Nat → List Nat
  | 0, _ => []
  | w + 1, n => n % 256 :: natToLe w (n / 256)

/-- `bincode::serialize(&self)` for `WireHeader`: the nine fields in
declaration order, fixed width, little-endian, no padding (22 bytes). -/
def serializeWireHeader (h : WireHeader) : List Nat :=
  natToLe 1 h.provider ++ natToLe 8 h.session ++ natToLe 1 h.content_type ++
    natToLe 1 h.accept_type ++ natToLe 1 h.auth_type ++ natToLe 4 h.body_len ++
    natToLe 2 h.auth_len ++ natToLe 2 h.opcode ++ natToLe 2 h.status

/-- `bincode::deserialize::<WireHeader>(&bytes)`: reads the nine fields in
declaration order, fixed width, little-endian; fails (`InvalidEncoding`
through the `?` conversion) exactly when fewer than 22 bytes are present;
trailing bytes are ignored by `bincode::deserialize`. -/
def deserializeWireHeader (bs : List Nat) : Except ResponseStatus WireHeader :=
  if 22 ≤ bs.length then
    .ok { provider := leToNat (bs.take 1)
        , session := leToNat ((bs.drop 1).take 8)
        , content_type := leToNat ((bs.drop 9).take 1)
        , accept_type := leToNat ((bs.drop 10).take 1)
        , auth_type := leToNat ((bs.drop 11).take 1)
        , body_len := leToNat ((bs.drop 12).take 4)
        , auth_len := leToNat ((bs.drop 16).take 2)
        , opcode := leToNat ((bs.drop 18).take 2)
        , status := leToNat ((bs.drop 20).take 2) }
  else .error .InvalidEncoding

/-- The output capability `W: Write`: bytes written so far and the remaining
capacity of the underlying transport (`none` = unbounded). -/
structure Sink where
  written : List Nat
  capacity : Option Nat
deriving DecidableEq, Repr

/-- `stream.write_all(&bs)?`: all-or-nothing blocking write; an incomplete
write surfaces as `ConnectionError` through the `?` conversion. -/
def write_all (bs : List Nat) (k : Sink) : Except ResponseStatus Sink :=
  match k.capacity with
  | none => .ok ⟨k.written ++ bs, none⟩
  | some c =>
      if bs.length ≤ c then .ok ⟨k.written ++ bs, some (c - bs.length)⟩
      else .error .ConnectionError

/-- `WireHeader::write_to_stream`: five `write_all` calls in source order —
magic number, header size, version major, version minor, the nine fields.
`bincode::serialize` of fixed-width integers into a fresh `Vec` cannot fail,
so no `InvalidEncoding` path is reachable in the model. -/
def write_to_stream (h : WireHeader) (k : Sink) : Except ResponseStatus Sink :=
  match write_all (natToLe 4 MAGIC_NUMBER) k with
  | .error e => .error e
  | .ok k1 =>
    match write_all (natToLe 2 REQUEST_HDR_SIZE) k1 with
    | .error e => .error e
    | .ok k2 =>
      match write_all (natToLe 1 WIRE_PROTOCOL_VERSION_MAJ) k2 with
      | .error e => .error e
      | .ok k3 =>
        match write_all (natToLe 1 WIRE_PROTOCOL_VERSION_MIN) k3 with
        | .error e => .error e
        | .ok k4 => write_all (serializeWireHeader h) k4

/-- The byte sequence `write_to_stream` emits when every write succeeds. -/
def encodeBytes (h : WireHeader) : List Nat :=
  natToLe 4 MAGIC_NUMBER ++ natToLe 2 REQUEST_HDR_SIZE ++
    natToLe 1 WIRE_PROTOCOL_VERSION_MAJ ++ natToLe 1 WIRE_PROTOCOL_VERSION_MIN ++
    serializeWireHeader h

/-- Outcome of a decode call: success, one of the four error kinds, or a
Rust panic (reachable in principle through `bytes.remove(0)`). -/
inductive DecodeResult where
  | ok (h : WireHeader)
  | err (e : ResponseStatus)
  | panic
deriving DecidableEq, Repr

/-- Exact-length read from the stream (`read_exact` / `get_from_stream!`):
succeeds with the first `n` bytes when they are available, otherwise fails
with `ConnectionError`; either way the consumed bytes are gone. -/
def readBytes (n : Nat) (s : List Nat) :
    Except ResponseStatus (List Nat) × List Nat :=
  if n ≤ s.length then (.ok (s.take n), s.drop n)
  else (.error .ConnectionError, s.drop n)

/-- Lines 131–141 of the source: the two `bytes.remove(0)` calls (each
panicking on an empty vector), the version equality check, and the final
`bincode::deserialize` of the remaining bytes.  `s3` is the unconsumed
remainder of the stream, unchanged by this phase. -/
def decodeFields (bytes : List Nat) (s3 : List Nat) : DecodeResult × List Nat :=
  match bytes with
  | [] => (.panic, s3)
  | version_maj :: rest =>
    match rest with
    | [] => (.panic, s3)
    | version_min :: rest2 =>
      if version_maj ≠ WIRE_PROTOCOL_VERSION_MAJ ∨
          version_min ≠ WIRE_PROTOCOL_VERSION_MIN then
        (.err .WireProtocolVersionNotSupported, s3)
      else
        match deserializeWireHeader rest2 with
        | .error e => (.err e, s3)
        | .ok h => (.ok h, s3)

/-- Lines 121–129 of the source, after `hdr_size` has been read:
`usize::try_from(hdr_size)` (whose error branch surfaces through `?` as a
conversion failure), the unconditional `read_exact` of `hdr_size` bytes,
and the size equality check. -/
def decodeAfterSize (hdr_size : Nat) (s2 : List Nat) : DecodeResult × List Nat :=
  if hdr_size < 2 ^ 64 then
    match readBytes hdr_size s2 with
    | (.error e, s3) => (.err e, s3)
    | (.ok bytes, s3) =>
      if hdr_size ≠ REQUEST_HDR_SIZE then (.err .InvalidHeader, s3)
      else decodeFields bytes s3
  else (.err .InvalidEncoding, s2)

/-- Line 120 of the source: `let hdr_size = get_from_stream!(stream, u16);`
(little-endian, failing with `ConnectionError` on a short read). -/
def decodeAfterMagic (s1 : List Nat) : DecodeResult × List Nat :=
  match readBytes 2 s1 with
  | (.error e, s2) => (.err e, s2)
  | (.ok sizeBytes, s2) => decodeAfterSize (leToNat sizeBytes) s2

/-- `WireHeader::read_from_stream`, returning the outcome together with the
unconsumed remainder of the stream.  Lines 111–118 of the source: the magic
number read and check, then the phases above in source order. -/
def read_from_stream (s : List Nat) : DecodeResult × List Nat :=
  match readBytes 4 s with
  | (.error e, s1) => (.err e, s1)
  | (.ok magicBytes, s1) =>
    if leToNat magicBytes ≠ MAGIC_NUMBER then (.err .InvalidHeader, s1)
    else decodeAfterMagic s1

/-! ## Little-endian encoding lemmas -/

theorem natToLe_length (w n : Nat) : (natToLe w n).length = w := by
  induction w generalizing n with
  | zero => rfl
  | succ w ih => simp [natToLe, ih]

theorem leToNat_natToLe (w : Nat) :
    ∀ n, n < 2 ^ (8 * w) → leToNat (natToLe w n) = n := by
  induction w with
  | zero =>
      intro n h
      simp only [Nat.mul_zero, pow_zero, Nat.lt_one_iff] at h
      simp [natToLe, leToNat, h]
  | succ w ih =>
      intro n h
      have h8 : 8 * (w + 1) = 8 * w + 8 := by ring
      have hdiv : n / 256 < 2 ^ (8 * w) := by
        rw [Nat.div_lt_iff_lt_mul (by norm_num : (0:ℕ) < 256)]
        calc n < 2 ^ (8 * (w + 1)) := h
          _ = 2 ^ (8 * w) * 256 := by rw [h8, pow_add]; norm_num
      simp only [natToLe, leToNat, ih _ hdiv]
      omega

theorem leToNat_lt (bs : List Nat) (h : ∀ b ∈ bs, b < 256) :
    leToNat bs < 2 ^ (8 * bs.length) := by
  induction bs with
  | nil => simp [leToNat]
  | cons b tl ih =>
      have hb : b < 256 := h b (by simp)
      have htl := ih (fun x hx => h x (by simp [hx]))
      have h8 : 8 * (b :: tl).length = 8 * tl.length + 8 := by
        simp [List.length_cons]; ring
      rw [h8, pow_add]
      have h1 : b + 256 * leToNat tl < 256 * (leToNat tl + 1) := by omega
      have h2 : 256 * (leToNat tl + 1) ≤ 256 * 2 ^ (8 * tl.length) := by
        exact Nat.mul_le_mul_left _ (by omega)
      calc leToNat (b :: tl) = b + 256 * leToNat tl := rfl
        _ < 256 * (leToNat tl + 1) := h1
        _ ≤ 256 * 2 ^ (8 * tl.length) := h2
        _ = 2 ^ (8 * tl.length) * 2 ^ 8 := by ring

/-! ## Stream-read and phase-reduction lemmas -/

theorem readBytes_of_le {n : Nat} {s : List Nat} (h : n ≤ s.length) :
    readBytes n s = (.ok (s.take n), s.drop n) := by
  simp [readBytes, h]

theorem readBytes_of_lt {n : Nat} {s : List Nat} (h : s.length < n) :
    readBytes n s = (.error .ConnectionError, []) := by
  unfold readBytes
  rw [if_neg (by omega), List.drop_of_length_le (by omega)]

theorem validBytes_take (s : List Nat) (n : Nat) (hv : ValidBytes s) :
    ValidBytes (s.take n) :=
  fun b hb => hv b (List.take_subset n s hb)

theorem validBytes_drop (s : List Nat) (n : Nat) (hv : ValidBytes s) :
    ValidBytes (s.drop n) :=
  fun b hb => hv b (List.drop_subset n s hb)

theorem read_from_stream_of_short {s : List Nat} (h : s.length < 4) :
    read_from_stream s = (.err .ConnectionError, []) := by
  simp [read_from_stream, readBytes_of_lt h]

theorem read_from_stream_of_badMagic {s : List Nat} (h4 : 4 ≤ s.length)
    (hm : leToNat (s.take 4) ≠ MAGIC_NUMBER) :
    read_from_stream s = (.err .InvalidHeader, s.drop 4) := by
  simp [read_from_stream, readBytes_of_le h4, hm]

theorem read_from_stream_of_goodMagic {s : List Nat} (h4 : 4 ≤ s.length)
    (hm : leToNat (s.take 4) = MAGIC_NUMBER) :
    read_from_stream s = decodeAfterMagic (s.drop 4) := by
  simp [read_from_stream, readBytes_of_le h4, hm]

theorem decodeAfterMagic_of_short {s1 : List Nat} (h : s1.length < 2) :
    decodeAfterMagic s1 = (.err .ConnectionError, []) := by
  simp [decodeAfterMagic, readBytes_of_lt h]

theorem decodeAfterMagic_of_le {s1 : List Nat} (h : 2 ≤ s1.length) :
    decodeAfterMagic s1 = decodeAfterSize (leToNat (s1.take 2)) (s1.drop 2) := by
  simp [decodeAfterMagic, readBytes_of_le h]

theorem decodeAfterSize_of_short {L : Nat} {s2 : List Nat} (hL : L < 2 ^ 64)
    (h : s2.length < L) :
    decodeAfterSize L s2 = (.err .ConnectionError, []) := by
  have hL2 : L < 18446744073709551616 := by norm_num at hL; exact hL
  simp [decodeAfterSize, hL2, readBytes_of_lt h]

theorem decodeAfterSize_of_ne {L : Nat} {s2 : List Nat} (hL : L < 2 ^ 64)
    (h : L ≤ s2.length) (hne : L ≠ 24) :
    decodeAfterSize L s2 = (.err .InvalidHeader, s2.drop L) := by
  have hL2 : L < 18446744073709551616 := by norm_num at hL; exact hL
  simp [decodeAfterSize, hL2, readBytes_of_le h, REQUEST_HDR_SIZE, hne]

theorem decodeAfterSize_24 {s2 : List Nat} (h : 24 ≤ s2.length) :
    decodeAfterSize 24 s2 = decodeFields (s2.take 24) (s2.drop 24) := by
  norm_num [decodeAfterSize, readBytes_of_le h, REQUEST_HDR_SIZE]

theorem decodeFields_of_badVersion {b0 b1 : Nat} {rest s3 : List Nat}
    (h : b0 ≠ 1 ∨ b1 ≠ 0) :
    decodeFields (b0 :: b1 :: rest) s3 =
      (.err .WireProtocolVersionNotSupported, s3) := by
  simp [decodeFields, WIRE_PROTOCOL_VERSION_MAJ, WIRE_PROTOCOL_VERSION_MIN, h]

theorem decodeFields_of_le {rest s3 : List Nat} (h : 22 ≤ rest.length) :
    decodeFields (1 :: 0 :: rest) s3 =
      (.ok { provider := leToNat (rest.take 1)
           , session := leToNat ((rest.drop 1).take 8)
           , content_type := leToNat ((rest.drop 9).take 1)
           , accept_type := leToNat ((rest.drop 10).take 1)
           , auth_type := leToNat ((rest.drop 11).take 1)
           , body_len := leToNat ((rest.drop 12).take 4)
           , auth_len := leToNat ((rest.drop 16).take 2)
           , opcode := leToNat ((rest.drop 18).take 2)
           , status := leToNat ((rest.drop 20).take 2) }, s3) := by
  simp [decodeFields, WIRE_PROTOCOL_VERSION_MAJ, WIRE_PROTOCOL_VERSION_MIN,
    deserializeWireHeader, h]

/-! ## Frame slicing -/

theorem serializeWireHeader_length (h : WireHeader) :
    (serializeWireHeader h).length = 22 := by
  simp [serializeWireHeader, natToLe_length]

theorem encodeBytes_length (h : WireHeader) : (encodeBytes h).length = 30 := by
  simp [encodeBytes, serializeWireHeader_length, natToLe_length]

theorem drop_chunk (m : Nat) {W X : List Nat} {k d : Nat} {c : List Nat}
    (hW : W.drop k = c ++ X) (hc : c.length = d) (hm : m = k + d) :
    W.drop m = X := by
  subst hm
  rw [← List.drop_drop, hW]
  exact List.drop_left' hc

theorem take_chunk {W X : List Nat} {k n : Nat} {c : List Nat}
    (hW : W.drop k = c ++ X) (hc : c.length = n) :
    (W.drop k).take n = c := by
  rw [hW]
  exact List.take_left' hc

theorem deserializeWireHeader_chunks
    (a b c d e f g i j rest : List Nat)
    (ha : a.length = 1) (hb : b.length = 8) (hc : c.length = 1)
    (hd : d.length = 1) (he : e.length = 1) (hf : f.length = 4)
    (hg : g.length = 2) (hi : i.length = 2) (hj : j.length = 2) :
    deserializeWireHeader
        (a ++ (b ++ (c ++ (d ++ (e ++ (f ++ (g ++ (i ++ (j ++ rest))))))))) =
      .ok { provider := leToNat a, session := leToNat b
          , content_type := leToNat c, accept_type := leToNat d
          , auth_type := leToNat e, body_len := leToNat f
          , auth_len := leToNat g, opcode := leToNat i, status := leToNat j } := by
  have d0 : (a ++ (b ++ (c ++ (d ++ (e ++ (f ++ (g ++ (i ++ (j ++ rest))))))))).drop 0
      = a ++ (b ++ (c ++ (d ++ (e ++ (f ++ (g ++ (i ++ (j ++ rest)))))))) :=
    List.drop_zero _
  have d1 := drop_chunk 1 d0 ha (by norm_num)
  have d9 := drop_chunk 9 d1 hb (by norm_num)
  have d10 := drop_chunk 10 d9 hc (by norm_num)
  have d11 := drop_chunk 11 d10 hd (by norm_num)
  have d12 := drop_chunk 12 d11 he (by norm_num)
  have d16 := drop_chunk 16 d12 hf (by norm_num)
  have d18 := drop_chunk 18 d16 hg (by norm_num)
  have d20 := drop_chunk 20 d18 hi (by norm_num)
  have hlen : 22 ≤
      (a ++ (b ++ (c ++ (d ++ (e ++ (f ++ (g ++ (i ++ (j ++ rest))))))))).length := by
    simp [ha, hb, hc, hd, he, hf, hg, hi, hj]
    omega
  have t1 : (a ++ (b ++ (c ++ (d ++ (e ++ (f ++ (g ++ (i ++ (j ++ rest))))))))).take 1
      = a := List.take_left' ha
  have t2 := take_chunk d1 hb
  have t3 := take_chunk d9 hc
  have t4 := take_chunk d10 hd
  have t5 := take_chunk d11 he
  have t6 := take_chunk d12 hf
  have t7 := take_chunk d16 hg
  have t8 := take_chunk d18 hi
  have t9 := take_chunk d20 hj
  simp only [deserializeWireHeader]
  rw [if_pos hlen, t1, t2, t3, t4, t5, t6, t7, t8, t9]

theorem deserializeWireHeader_serializeWireHeader (h : WireHeader)
    (hv : h.Valid) :
    deserializeWireHeader (serializeWireHeader h) = .ok h := by
  obtain ⟨hp, hs, hct, hat, hau, hbl, hal, hop, hst⟩ := hv
  have hser : serializeWireHeader h =
      natToLe 1 h.provider ++ (natToLe 8 h.session ++ (natToLe 1 h.content_type ++
        (natToLe 1 h.accept_type ++ (natToLe 1 h.auth_type ++ (natToLe 4 h.body_len ++
          (natToLe 2 h.auth_len ++ (natToLe 2 h.opcode ++
            (natToLe 2 h.status ++ ([] : List Nat))))))))) := by
    simp [serializeWireHeader]
  rw [hser, deserializeWireHeader_chunks _ _ _ _ _ _ _ _ _ _
    (natToLe_length 1 _) (natToLe_length 8 _) (natToLe_length 1 _)
    (natToLe_length 1 _) (natToLe_length 1 _) (natToLe_length 4 _)
    (natToLe_length 2 _) (natToLe_length 2 _) (natToLe_length 2 _),
    leToNat_natToLe 1 _ (by simpa using hp), leToNat_natToLe 8 _ (by simpa using hs),
    leToNat_natToLe 1 _ (by simpa using hct), leToNat_natToLe 1 _ (by simpa using hat),
    leToNat_natToLe 1 _ (by simpa using hau), leToNat_natToLe 4 _ (by simpa using hbl),
    leToNat_natToLe 2 _ (by simpa using hal), leToNat_natToLe 2 _ (by simpa using hop),
    leToNat_natToLe 2 _ (by simpa using hst)]

theorem decodeFields_of_deserialize {rest s3 : List Nat} {hh : WireHeader}
    (h : deserializeWireHeader rest = .ok hh) :
    decodeFields (1 :: 0 :: rest) s3 = (.ok hh, s3) := by
  simp [decodeFields, WIRE_PROTOCOL_VERSION_MAJ, WIRE_PROTOCOL_VERSION_MIN, h]

theorem encodeBytes_decomp (h : WireHeader) :
    encodeBytes h = natToLe 4 MAGIC_NUMBER ++
      (natToLe 2 REQUEST_HDR_SIZE ++ (1 :: 0 :: serializeWireHeader h)) := by
  simp only [encodeBytes, List.append_assoc]
  rfl

/-! ## Claim theorems -/

/-- C1: round trip — for every header value whose nine fields are within
their machine widths, writing the header to an unbounded stream emits
`encodeBytes h`, and decoding that byte sequence succeeds, returns exactly
`h`, and consumes the whole 30-byte frame. -/
theorem claim_C1_round_trip (h : WireHeader) (hv : h.Valid) :
    write_to_stream h ⟨[], none⟩ = .ok ⟨encodeBytes h, none⟩ ∧
    read_from_stream (encodeBytes h) = (.ok h, []) := by
  constructor
  · rfl
  · have hlen : (encodeBytes h).length = 30 := encodeBytes_length h
    have d0 : (encodeBytes h).drop 0 = natToLe 4 MAGIC_NUMBER ++
        (natToLe 2 REQUEST_HDR_SIZE ++ (1 :: 0 :: serializeWireHeader h)) := by
      rw [List.drop_zero]; exact encodeBytes_decomp h
    have t4 := take_chunk d0 (natToLe_length 4 _)
    rw [List.drop_zero] at t4
    have hm : leToNat ((encodeBytes h).take 4) = MAGIC_NUMBER := by
      rw [t4]
      exact leToNat_natToLe 4 _ (by norm_num [MAGIC_NUMBER])
    have d4 := drop_chunk 4 d0 (natToLe_length 4 _) (by norm_num)
    rw [read_from_stream_of_goodMagic (by omega) hm]
    have h2 : 2 ≤ ((encodeBytes h).drop 4).length := by
      simp [hlen]
    rw [decodeAfterMagic_of_le h2]
    have t2 := take_chunk d4 (natToLe_length 2 _)
    have hsz : leToNat (((encodeBytes h).drop 4).take 2) = 24 := by
      rw [t2]
      exact leToNat_natToLe 2 _ (by norm_num [REQUEST_HDR_SIZE])
    have d6 := drop_chunk 6 d4 (natToLe_length 2 _) (by norm_num)
    have dd : List.drop 2 (List.drop 4 (encodeBytes h)) =
        List.drop 6 (encodeBytes h) := by
      rw [List.drop_drop]
    rw [hsz, dd, d6]
    have hser : (serializeWireHeader h).length = 22 := serializeWireHeader_length h
    have h24 : 24 ≤ (1 :: 0 :: serializeWireHeader h).length := by
      simp [hser]
    rw [decodeAfterSize_24 h24]
    rw [List.take_of_length_le (by simp [hser]),
      List.drop_of_length_le (by simp [hser])]
    exact decodeFields_of_deserialize
      (deserializeWireHeader_serializeWireHeader h hv)

/-- C1 witness: the round-trip theorem applied to the concrete scenario
header from the spec. -/
theorem claim_C1_round_trip_witness :
    (WireHeader.mk 1 18446744073709551615 1 1 0 100 0 9 0).Valid ∧
    (write_to_stream (WireHeader.mk 1 18446744073709551615 1 1 0 100 0 9 0) ⟨[], none⟩ =
        .ok ⟨encodeBytes (WireHeader.mk 1 18446744073709551615 1 1 0 100 0 9 0), none⟩ ∧
      read_from_stream (encodeBytes (WireHeader.mk 1 18446744073709551615 1 1 0 100 0 9 0)) =
        (.ok (WireHeader.mk 1 18446744073709551615 1 1 0 100 0 9 0), [])) :=
  ⟨by decide, claim_C1_round_trip _ (by decide)⟩

/-- C2: encode wire layout — for every header within machine widths the
emitted frame is 30 bytes: the little-endian magic number at offset 0, the
little-endian constant 24 at offset 4, byte 1 at offset 6, byte 0 at
offset 7, then the nine fields fixed-width little-endian with no padding
at offsets 8, 9, 17, 18, 19, 20, 24, 26, 28. -/
theorem claim_C2_encode_layout (h : WireHeader) (hv : h.Valid) :
    (encodeBytes h).length = 30 ∧
    (encodeBytes h).take 4 = natToLe 4 MAGIC_NUMBER ∧
    ((encodeBytes h).drop 4).take 2 = natToLe 2 24 ∧
    ((encodeBytes h).drop 6).take 1 = [1] ∧
    ((encodeBytes h).drop 7).take 1 = [0] ∧
    leToNat (((encodeBytes h).drop 8).take 1) = h.provider ∧
    leToNat (((encodeBytes h).drop 9).take 8) = h.session ∧
    leToNat (((encodeBytes h).drop 17).take 1) = h.content_type ∧
    leToNat (((encodeBytes h).drop 18).take 1) = h.accept_type ∧
    leToNat (((encodeBytes h).drop 19).take 1) = h.auth_type ∧
    leToNat (((encodeBytes h).drop 20).take 4) = h.body_len ∧
    leToNat (((encodeBytes h).drop 24).take 2) = h.auth_len ∧
    leToNat (((encodeBytes h).drop 26).take 2) = h.opcode ∧
    leToNat (((encodeBytes h).drop 28).take 2) = h.status := by
  obtain ⟨hp, hs, hct, hat, hau, hbl, hal, hop, hst⟩ := hv
  have d0 : (encodeBytes h).drop 0 = natToLe 4 MAGIC_NUMBER ++
      (natToLe 2 REQUEST_HDR_SIZE ++ ([1] ++ ([0] ++ (natToLe 1 h.provider ++
        (natToLe 8 h.session ++ (natToLe 1 h.content_type ++
          (natToLe 1 h.accept_type ++ (natToLe 1 h.auth_type ++
            (natToLe 4 h.body_len ++ (natToLe 2 h.auth_len ++
              (natToLe 2 h.opcode ++ natToLe 2 h.status))))))))))) := by
    rw [List.drop_zero]
    simp only [encodeBytes, serializeWireHeader, List.append_assoc]
    rfl
  have d4 := drop_chunk 4 d0 (natToLe_length 4 _) (by norm_num)
  have d6 := drop_chunk 6 d4 (natToLe_length 2 _) (by norm_num)
  have d7 := drop_chunk 7 d6 (rfl : ([1] : List Nat).length = 1) (by norm_num)
  have d8 := drop_chunk 8 d7 (rfl : ([0] : List Nat).length = 1) (by norm_num)
  have d9 := drop_chunk 9 d8 (natToLe_length 1 _) (by norm_num)
  have d17 := drop_chunk 17 d9 (natToLe_length 8 _) (by norm_num)
  have d18 := drop_chunk 18 d17 (natToLe_length 1 _) (by norm_num)
  have d19 := drop_chunk 19 d18 (natToLe_length 1 _) (by norm_num)
  have d20 := drop_chunk 20 d19 (natToLe_length 1 _) (by norm_num)
  have d24 := drop_chunk 24 d20 (natToLe_length 4 _) (by norm_num)
  have d26 := drop_chunk 26 d24 (natToLe_length 2 _) (by norm_num)
  have d28 := drop_chunk 28 d26 (natToLe_length 2 _) (by norm_num)
  have t0 := take_chunk d0 (natToLe_length 4 _)
  rw [List.drop_zero] at t0
  refine ⟨encodeBytes_length h, t0, ?_, ?_, ?_, ?_, ?_, ?_, ?_, ?_, ?_, ?_, ?_, ?_⟩
  · rw [take_chunk d4 (natToLe_length 2 _)]
    norm_num [REQUEST_HDR_SIZE]
  · exact take_chunk d6 rfl
  · exact take_chunk d7 rfl
  · rw [take_chunk d8 (natToLe_length 1 _)]
    exact leToNat_natToLe 1 _ (by simpa using hp)
  · rw [take_chunk d9 (natToLe_length 8 _)]
    exact leToNat_natToLe 8 _ (by simpa using hs)
  · rw [take_chunk d17 (natToLe_length 1 _)]
    exact leToNat_natToLe 1 _ (by simpa using hct)
  · rw [take_chunk d18 (natToLe_length 1 _)]
    exact leToNat_natToLe 1 _ (by simpa using hat)
  · rw [take_chunk d19 (natToLe_length 1 _)]
    exact leToNat_natToLe 1 _ (by simpa using hau)
  · rw [take_chunk d20 (natToLe_length 4 _)]
    exact leToNat_natToLe 4 _ (by simpa using hbl)
  · rw [take_chunk d24 (natToLe_length 2 _)]
    exact leToNat_natToLe 2 _ (by simpa using hal)
  · rw [take_chunk d26 (natToLe_length 2 _)]
    exact leToNat_natToLe 2 _ (by simpa using hop)
  · rw [take_chunk d28 (natToLe_length 2 _)]
    exact leToNat_natToLe 2 _ (by simpa using hst)

/-- C2 witness: the layout theorem applied to the spec's scenario header,
together with the concrete 30-byte sequence it emits. -/
theorem claim_C2_encode_layout_witness :
    encodeBytes (WireHeader.mk 1 18446744073709551615 1 1 0 100 0 9 0) =
      [16, 167, 192, 94, 24, 0, 1, 0, 1, 255, 255, 255, 255, 255, 255, 255,
        255, 1, 1, 0, 100, 0, 0, 0, 0, 0, 9, 0, 0, 0] ∧
    ((encodeBytes (WireHeader.mk 1 18446744073709551615 1 1 0 100 0 9 0)).length = 30 ∧
      (encodeBytes (WireHeader.mk 1 18446744073709551615 1 1 0 100 0 9 0)).take 4 =
        natToLe 4 MAGIC_NUMBER ∧
      ((encodeBytes (WireHeader.mk 1 18446744073709551615 1 1 0 100 0 9 0)).drop 4).take 2 =
        natToLe 2 24 ∧
      ((encodeBytes (WireHeader.mk 1 18446744073709551615 1 1 0 100 0 9 0)).drop 6).take 1 =
        [1] ∧
      ((encodeBytes (WireHeader.mk 1 18446744073709551615 1 1 0 100 0 9 0)).drop 7).take 1 =
        [0] ∧
      leToNat (((encodeBytes (WireHeader.mk 1 18446744073709551615 1 1 0 100 0 9 0)).drop 8).take 1) = 1 ∧
      leToNat (((encodeBytes (WireHeader.mk 1 18446744073709551615 1 1 0 100 0 9 0)).drop 9).take 8) = 18446744073709551615 ∧
      leToNat (((encodeBytes (WireHeader.mk 1 18446744073709551615 1 1 0 100 0 9 0)).drop 17).take 1) = 1 ∧
      leToNat (((encodeBytes (WireHeader.mk 1 18446744073709551615 1 1 0 100 0 9 0)).drop 18).take 1) = 1 ∧
      leToNat (((encodeBytes (WireHeader.mk 1 18446744073709551615 1 1 0 100 0 9 0)).drop 19).take 1) = 0 ∧
      leToNat (((encodeBytes (WireHeader.mk 1 18446744073709551615 1 1 0 100 0 9 0)).drop 20).take 4) = 100 ∧
      leToNat (((encodeBytes (WireHeader.mk 1 18446744073709551615 1 1 0 100 0 9 0)).drop 24).take 2) = 0 ∧
      leToNat (((encodeBytes (WireHeader.mk 1 18446744073709551615 1 1 0 100 0 9 0)).drop 26).take 2) = 9 ∧
      leToNat (((encodeBytes (WireHeader.mk 1 18446744073709551615 1 1 0 100 0 9 0)).drop 28).take 2) = 0) :=
  ⟨by decide, claim_C2_encode_layout _ (by decide)⟩

theorem leToNat_take2_lt (s : List Nat) (hv : ValidBytes s) :
    leToNat ((s.drop 4).take 2) < 2 ^ 64 := by
  have h1 := leToNat_lt _ (validBytes_take _ 2 (validBytes_drop s 4 hv))
  have h2 : ((s.drop 4).take 2).length ≤ 2 := by
    simp [List.length_take]
  have h3 : 2 ^ (8 * ((s.drop 4).take 2).length) ≤ 2 ^ 16 :=
    Nat.pow_le_pow_right (by norm_num) (by omega)
  exact lt_of_lt_of_le h1 (le_trans h3 (by norm_num))

/-- C3: magic-first gate — any stream of at least four bytes whose first
four bytes, read little-endian, differ from the magic number fails with
`InvalidHeader` with exactly four bytes consumed, regardless of what
follows. -/
theorem claim_C3_magic_gate (s : List Nat) (h4 : 4 ≤ s.length)
    (hm : leToNat (s.take 4) ≠ MAGIC_NUMBER) :
    read_from_stream s = (.err .InvalidHeader, s.drop 4) :=
  read_from_stream_of_badMagic h4 hm

/-- C3 witness: a wrong-magic stream whose remaining bytes would form a
valid frame is rejected after four bytes. -/
theorem claim_C3_magic_gate_witness :
    4 ≤ ([0, 0, 0, 0, 24, 0, 1, 0, 1, 255, 255, 255, 255, 255, 255, 255,
        255, 1, 1, 0, 100, 0, 0, 0, 0, 0, 9, 0, 0, 0] : List Nat).length ∧
    leToNat (([0, 0, 0, 0, 24, 0, 1, 0, 1, 255, 255, 255, 255, 255, 255, 255,
        255, 1, 1, 0, 100, 0, 0, 0, 0, 0, 9, 0, 0, 0] : List Nat).take 4) ≠
      MAGIC_NUMBER ∧
    read_from_stream [0, 0, 0, 0, 24, 0, 1, 0, 1, 255, 255, 255, 255, 255,
        255, 255, 255, 1, 1, 0, 100, 0, 0, 0, 0, 0, 9, 0, 0, 0] =
      (.err .InvalidHeader, [24, 0, 1, 0, 1, 255, 255, 255, 255, 255, 255,
        255, 255, 1, 1, 0, 100, 0, 0, 0, 0, 0, 9, 0, 0, 0]) :=
  ⟨by decide, by decide, by
    have h := claim_C3_magic_gate
      [0, 0, 0, 0, 24, 0, 1, 0, 1, 255, 255, 255, 255, 255, 255, 255, 255, 1,
        1, 0, 100, 0, 0, 0, 0, 0, 9, 0, 0, 0] (by decide) (by decide)
    exact h.trans (by decide)⟩

/-- C4: length gate with unconditional read — with correct magic and a
declared length L different from 24, provided L further bytes are
available, decode reads those L bytes and then fails with `InvalidHeader`,
leaving exactly `s.drop (6 + L)` unconsumed. -/
theorem claim_C4_length_gate (s : List Nat) (hv : ValidBytes s)
    (hm : leToNat (s.take 4) = MAGIC_NUMBER)
    (hne : leToNat ((s.drop 4).take 2) ≠ 24)
    (hlen : 6 + leToNat ((s.drop 4).take 2) ≤ s.length) :
    read_from_stream s =
      (.err .InvalidHeader, s.drop (6 + leToNat ((s.drop 4).take 2))) := by
  have h4 : 4 ≤ s.length := by omega
  rw [read_from_stream_of_goodMagic h4 hm]
  have h2 : 2 ≤ (s.drop 4).length := by
    simp only [List.length_drop]; omega
  rw [decodeAfterMagic_of_le h2]
  have hL := leToNat_take2_lt s hv
  have hle : leToNat ((s.drop 4).take 2) ≤ ((s.drop 4).drop 2).length := by
    simp only [List.length_drop]; omega
  rw [decodeAfterSize_of_ne hL hle hne]
  simp [List.drop_drop]

/-- C4 witness: a frame declaring header length 23 is rejected with
`InvalidHeader` after its 23 declared bytes were consumed. -/
theorem claim_C4_length_gate_witness :
    ValidBytes [16, 167, 192, 94, 23, 0, 1, 0, 1, 255, 255, 255, 255, 255,
        255, 255, 255, 1, 1, 0, 100, 0, 0, 0, 0, 0, 9, 0, 0, 77, 88] ∧
    read_from_stream [16, 167, 192, 94, 23, 0, 1, 0, 1, 255, 255, 255, 255,
        255, 255, 255, 255, 1, 1, 0, 100, 0, 0, 0, 0, 0, 9, 0, 0, 77, 88] =
      (.err .InvalidHeader, [77, 88]) :=
  ⟨by decide, by
    have h := claim_C4_length_gate
      [16, 167, 192, 94, 23, 0, 1, 0, 1, 255, 255, 255, 255, 255, 255, 255,
        255, 1, 1, 0, 100, 0, 0, 0, 0, 0, 9, 0, 0, 77, 88]
      (by decide) (by decide) (by decide) (by decide)
    exact h.trans (by decide)⟩

/-- C5: version gate — with correct magic, declared length 24, and the full
frame available, a buffer whose first two bytes are not exactly (1, 0)
fails with `WireProtocolVersionNotSupported` (never `InvalidEncoding`),
with all 30 frame bytes consumed and the 22 field bytes untouched. -/
theorem claim_C5_version_gate (s : List Nat) (b0 b1 : Nat)
    (hm : leToNat (s.take 4) = MAGIC_NUMBER)
    (hsz : leToNat ((s.drop 4).take 2) = 24)
    (hlen : 30 ≤ s.length)
    (hvb : (s.drop 6).take 2 = [b0, b1])
    (hne : b0 ≠ 1 ∨ b1 ≠ 0) :
    read_from_stream s = (.err .WireProtocolVersionNotSupported, s.drop 30) := by
  rw [read_from_stream_of_goodMagic (by omega) hm]
  have h2 : 2 ≤ (s.drop 4).length := by
    simp only [List.length_drop]; omega
  rw [decodeAfterMagic_of_le h2, hsz]
  have dd : (s.drop 4).drop 2 = s.drop 6 := by
    rw [List.drop_drop]
  rw [dd]
  have h24 : 24 ≤ (s.drop 6).length := by
    simp only [List.length_drop]; omega
  rw [decodeAfterSize_24 h24]
  have hsplit : (s.drop 6).take 24 = b0 :: b1 :: (s.drop 8).take 22 := by
    have h242 : (24 : Nat) = 2 + 22 := by norm_num
    rw [h242, List.take_add, hvb]
    have d8 : (s.drop 6).drop 2 = s.drop 8 := by
      rw [List.drop_drop]
    rw [d8]
    rfl
  have hd30 : (s.drop 6).drop 24 = s.drop 30 := by
    rw [List.drop_drop]
  rw [hsplit, hd30, decodeFields_of_badVersion hne]

/-- C5 witness: a frame with version 2.0 and otherwise valid shape is
rejected with `WireProtocolVersionNotSupported`. -/
theorem claim_C5_version_gate_witness :
    read_from_stream [16, 167, 192, 94, 24, 0, 2, 0, 1, 255, 255, 255, 255,
        255, 255, 255, 255, 1, 1, 0, 100, 0, 0, 0, 0, 0, 9, 0, 0, 0] =
      (.err .WireProtocolVersionNotSupported, []) := by
  have h := claim_C5_version_gate
    [16, 167, 192, 94, 24, 0, 2, 0, 1, 255, 255, 255, 255, 255, 255, 255,
      255, 1, 1, 0, 100, 0, 0, 0, 0, 0, 9, 0, 0, 0] 2 0
    (by decide) (by decide) (by decide) (by decide) (by decide)
  exact h.trans (by decide)

/-- C6: truncation — a stream that ends before the magic number is
complete, or (with correct magic) before the two length bytes and the
declared number of buffer bytes are available, fails with
`ConnectionError` and with no other error kind and no panic. -/
theorem claim_C6_truncation (s : List Nat) (hv : ValidBytes s) :
    (s.length < 4 → read_from_stream s = (.err .ConnectionError, [])) ∧
    (leToNat (s.take 4) = MAGIC_NUMBER →
      s.length < 6 + leToNat ((s.drop 4).take 2) →
      (read_from_stream s).1 = .err .ConnectionError) := by
  constructor
  · exact fun h => read_from_stream_of_short h
  · intro hm hlen
    by_cases h4 : 4 ≤ s.length
    · rw [read_from_stream_of_goodMagic h4 hm]
      by_cases h6 : 2 ≤ (s.drop 4).length
      · rw [decodeAfterMagic_of_le h6]
        have hL := leToNat_take2_lt s hv
        have hshort : ((s.drop 4).drop 2).length <
            leToNat ((s.drop 4).take 2) := by
          simp only [List.length_drop] at h6 ⊢; omega
        rw [decodeAfterSize_of_short hL hshort]
      · rw [decodeAfterMagic_of_short (by omega)]
    · rw [read_from_stream_of_short (by omega)]

/-- C6 witness: a frame truncated after the declared length fails with
`ConnectionError`. -/
theorem claim_C6_truncation_witness :
    ValidBytes [16, 167, 192, 94, 24, 0, 1, 0, 1] ∧
    (read_from_stream [16, 167, 192, 94, 24, 0, 1, 0, 1]).1 =
      .err .ConnectionError :=
  ⟨by decide,
    (claim_C6_truncation [16, 167, 192, 94, 24, 0, 1, 0, 1] (by decide)).2
      (by decide) (by decide)⟩

/-- C7: encode failure semantics — on an unbounded sink every write
completes and `write_to_stream` returns `Ok` having emitted the frame; on
a bounded sink it succeeds exactly when all 30 bytes fit, and otherwise
the first incomplete `write_all` aborts the function immediately with a
`ConnectionError` (serialization of fixed-width integers into a fresh
buffer cannot fail, so no `InvalidEncoding` outcome is reachable). -/
theorem claim_C7_write_semantics (h : WireHeader) (w : List Nat) :
    write_to_stream h ⟨w, none⟩ = .ok ⟨w ++ encodeBytes h, none⟩ ∧
    (∀ c, 30 ≤ c → write_to_stream h ⟨w, some c⟩ =
      .ok ⟨w ++ encodeBytes h, some (c - 30)⟩) ∧
    (∀ c, c < 30 → write_to_stream h ⟨w, some c⟩ = .error .ConnectionError) := by
  refine ⟨?_, ?_, ?_⟩
  · simp [write_to_stream, write_all, encodeBytes, List.append_assoc]
  · intro c h30
    have h1 : 4 ≤ c := by omega
    have h2 : 2 ≤ c - 4 := by omega
    have h3 : 1 ≤ c - 4 - 2 := by omega
    have h4 : 1 ≤ c - 4 - 2 - 1 := by omega
    have h5 : 22 ≤ c - 4 - 2 - 1 - 1 := by omega
    simp [write_to_stream, write_all, encodeBytes, natToLe_length,
      serializeWireHeader_length, h1, h2, h3, h4, h5, List.append_assoc]
    all_goals omega
  · intro c hlt
    by_cases h1 : 4 ≤ c
    · by_cases h2 : 2 ≤ c - 4
      · by_cases h3 : 1 ≤ c - 4 - 2
        · by_cases h4 : 1 ≤ c - 4 - 2 - 1
          · have h5 : ¬ 22 ≤ c - 4 - 2 - 1 - 1 := by omega
            simp [write_to_stream, write_all, natToLe_length,
              serializeWireHeader_length, h1, h2, h3, h4, h5]
          · simp [write_to_stream, write_all, natToLe_length, h1, h2, h3, h4]
        · simp [write_to_stream, write_all, natToLe_length, h1, h2, h3]
      · simp [write_to_stream, write_all, natToLe_length, h1, h2]
    · simp [write_to_stream, write_all, natToLe_length, h1]

/-- C7 witness: a sink with one spare byte accepts the frame; a sink with
room for only seven bytes produces a `ConnectionError`. -/
theorem claim_C7_write_semantics_witness :
    write_to_stream (WireHeader.mk 1 2 3 4 5 6 7 8 9) ⟨[], some 31⟩ =
      .ok ⟨encodeBytes (WireHeader.mk 1 2 3 4 5 6 7 8 9), some 1⟩ ∧
    write_to_stream (WireHeader.mk 1 2 3 4 5 6 7 8 9) ⟨[], some 7⟩ =
      .error .ConnectionError := by
  constructor
  · have h := (claim_C7_write_semantics (WireHeader.mk 1 2 3 4 5 6 7 8 9)
      []).2.1 31 (by norm_num)
    simpa using h
  · exact (claim_C7_write_semantics (WireHeader.mk 1 2 3 4 5 6 7 8 9)
      []).2.2 7 (by norm_num)

theorem decodeFields_ne_panic (b0 b1 : Nat) (rest s3 : List Nat) :
    (decodeFields (b0 :: b1 :: rest) s3).1 ≠ .panic := by
  by_cases hv : b0 ≠ 1 ∨ b1 ≠ 0
  · rw [decodeFields_of_badVersion hv]
    simp
  · push_neg at hv
    obtain ⟨hb0, hb1⟩ := hv
    subst hb0; subst hb1
    rcases hd : deserializeWireHeader rest with e | hh <;>
      simp [decodeFields, WIRE_PROTOCOL_VERSION_MAJ,
        WIRE_PROTOCOL_VERSION_MIN, hd]

theorem decodeAfterSize_ne_panic (L : Nat) (s2 : List Nat) :
    (decodeAfterSize L s2).1 ≠ .panic := by
  by_cases h64 : L < 2 ^ 64
  · by_cases hle : L ≤ s2.length
    · by_cases hne : L = 24
      · subst hne
        rw [decodeAfterSize_24 hle]
        have hlen : (s2.take 24).length = 24 := by
          rw [List.length_take]; omega
        rcases e : s2.take 24 with _ | ⟨b0, tl⟩
        · rw [e] at hlen; simp at hlen
        · rcases tl with _ | ⟨b1, tl2⟩
          · rw [e] at hlen; simp at hlen
          · exact decodeFields_ne_panic b0 b1 tl2 (s2.drop 24)
      · rw [decodeAfterSize_of_ne h64 hle hne]
        simp
    · rw [decodeAfterSize_of_short h64 (by omega)]
      simp
  · unfold decodeAfterSize
    rw [if_neg h64]
    simp

/-- C9: implicit panic freedom — for every valid byte stream the decoder
never reaches a panicking `bytes.remove(0)` call (the length-24 gate
guarantees a 24-byte buffer before the two removals), and the
`usize::try_from(hdr_size)` conversion of the 16-bit declared length never
takes its error branch. -/
theorem claim_C9_panic_free (s : List Nat) (hv : ValidBytes s) :
    (read_from_stream s).1 ≠ .panic ∧
    leToNat ((s.drop 4).take 2) < 2 ^ 64 := by
  refine ⟨?_, leToNat_take2_lt s hv⟩
  by_cases h4 : 4 ≤ s.length
  · by_cases hm : leToNat (s.take 4) = MAGIC_NUMBER
    · rw [read_from_stream_of_goodMagic h4 hm]
      by_cases h2 : 2 ≤ (s.drop 4).length
      · rw [decodeAfterMagic_of_le h2]
        exact decodeAfterSize_ne_panic _ _
      · rw [decodeAfterMagic_of_short (by omega)]
        simp
    · rw [read_from_stream_of_badMagic h4 hm]
      simp
  · rw [read_from_stream_of_short (by omega)]
    simp

/-- C9 witness: the panic-freedom theorem applied to a concrete valid
stream. -/
theorem claim_C9_panic_free_witness :
    ValidBytes [16, 167, 192, 94, 24, 0, 1, 0, 1] ∧
    ((read_from_stream [16, 167, 192, 94, 24, 0, 1, 0, 1]).1 ≠ .panic ∧
      leToNat ((([16, 167, 192, 94, 24, 0, 1, 0, 1] : List Nat).drop 4).take 2) <
        2 ^ 64) :=
  ⟨by decide, claim_C9_panic_free [16, 167, 192, 94, 24, 0, 1, 0, 1] (by decide)⟩

theorem decodeFields_snd (bytes s3 : List Nat) :
    (decodeFields bytes s3).2 = s3 := by
  rcases bytes with _ | ⟨b0, tl⟩
  · rfl
  · rcases tl with _ | ⟨b1, tl2⟩
    · rfl
    · by_cases hv : b0 ≠ WIRE_PROTOCOL_VERSION_MAJ ∨ b1 ≠ WIRE_PROTOCOL_VERSION_MIN
      · simp [decodeFields, hv]
      · rcases hd : deserializeWireHeader tl2 with e | hh <;>
          simp [decodeFields, hv, hd]

theorem decodeAfterSize_snd (L : Nat) (s2 : List Nat) (h64 : L < 2 ^ 64)
    (hle : L ≤ s2.length) :
    (decodeAfterSize L s2).2 = s2.drop L := by
  unfold decodeAfterSize
  rw [if_pos h64, readBytes_of_le hle]
  by_cases hne : L ≠ REQUEST_HDR_SIZE
  · simp [hne]
  · simp [hne, decodeFields_snd]

/-- C10: implicit exact consumption — once the magic matches and the
declared length L is fully available, exactly 6 + L bytes are consumed no
matter which later gate passes or fails; in particular a successful decode
consumes exactly the 30 frame bytes, leaving the body and authentication
bytes for the caller. -/
theorem claim_C10_consumption (s : List Nat) (hv : ValidBytes s) :
    (∀ h0 : WireHeader, (read_from_stream s).1 = .ok h0 →
      (read_from_stream s).2 = s.drop 30) ∧
    (leToNat (s.take 4) = MAGIC_NUMBER →
      6 + leToNat ((s.drop 4).take 2) ≤ s.length →
      (read_from_stream s).2 = s.drop (6 + leToNat ((s.drop 4).take 2))) := by
  constructor
  · intro h0 hok
    by_cases h4 : 4 ≤ s.length
    · by_cases hm : leToNat (s.take 4) = MAGIC_NUMBER
      · rw [read_from_stream_of_goodMagic h4 hm] at hok ⊢
        by_cases h2 : 2 ≤ (s.drop 4).length
        · rw [decodeAfterMagic_of_le h2] at hok ⊢
          have hL64 := leToNat_take2_lt s hv
          by_cases hle : leToNat ((s.drop 4).take 2) ≤ ((s.drop 4).drop 2).length
          · by_cases hne : leToNat ((s.drop 4).take 2) = 24
            · rw [hne] at hok ⊢
              rw [hne] at hle
              rw [decodeAfterSize_24 hle] at hok ⊢
              rw [decodeFields_snd]
              have e1 : (s.drop 4).drop 2 = s.drop 6 := by
                rw [List.drop_drop]
              have e2 : (s.drop 6).drop 24 = s.drop 30 := by
                rw [List.drop_drop]
              rw [e1, e2]
            · rw [decodeAfterSize_of_ne hL64 hle hne] at hok
              simp at hok
          · rw [decodeAfterSize_of_short hL64 (by omega)] at hok
            simp at hok
        · rw [decodeAfterMagic_of_short (by omega)] at hok
          simp at hok
      · rw [read_from_stream_of_badMagic h4 hm] at hok
        simp at hok
    · rw [read_from_stream_of_short (by omega)] at hok
      simp at hok
  · intro hm hlen
    have h4 : 4 ≤ s.length := by omega
    rw [read_from_stream_of_goodMagic h4 hm]
    have h2 : 2 ≤ (s.drop 4).length := by
      simp only [List.length_drop]; omega
    rw [decodeAfterMagic_of_le h2]
    have hle : leToNat ((s.drop 4).take 2) ≤ ((s.drop 4).drop 2).length := by
      simp only [List.length_drop]; omega
    rw [decodeAfterSize_snd _ _ (leToNat_take2_lt s hv) hle]
    simp [List.drop_drop]

/-- C10 witness: the consumption theorem applied to a 32-byte input whose
first 30 bytes form a valid frame followed by two body bytes. -/
theorem claim_C10_consumption_witness :
    ValidBytes [16, 167, 192, 94, 24, 0, 1, 0, 1, 255, 255, 255, 255, 255,
        255, 255, 255, 1, 1, 0, 100, 0, 0, 0, 0, 0, 9, 0, 0, 0, 42, 43] ∧
    (read_from_stream [16, 167, 192, 94, 24, 0, 1, 0, 1, 255, 255, 255, 255,
        255, 255, 255, 255, 1, 1, 0, 100, 0, 0, 0, 0, 0, 9, 0, 0, 0, 42, 43]).2 =
      ([16, 167, 192, 94, 24, 0, 1, 0, 1, 255, 255, 255, 255, 255, 255, 255,
        255, 1, 1, 0, 100, 0, 0, 0, 0, 0, 9, 0, 0, 0, 42, 43] : List Nat).drop
        (6 + leToNat ((([16, 167, 192, 94, 24, 0, 1, 0, 1, 255, 255, 255, 255,
          255, 255, 255, 255, 1, 1, 0, 100, 0, 0, 0, 0, 0, 9, 0, 0, 0, 42, 43] :
            List Nat).drop 4).take 2)) :=
  ⟨by decide,
    (claim_C10_consumption [16, 167, 192, 94, 24, 0, 1, 0, 1, 255, 255, 255,
        255, 255, 255, 255, 255, 1, 1, 0, 100, 0, 0, 0, 0, 0, 9, 0, 0, 0, 42, 43]
      (by decide)).2 (by decide) (by decide)⟩

/-- C8: decode completeness — every 30-byte input starting with the
little-endian magic number, the little-endian length 24, and version bytes
1 and 0 decodes successfully, whatever the 22 field bytes are, into the
header whose nine fields are the little-endian integers at frame offsets
8, 9, 17, 18, 19, 20, 24, 26 and 28, with the whole frame consumed. -/
theorem claim_C8_decode_wellformed (f : List Nat) (hlen : f.length = 30)
    (hm : leToNat (f.take 4) = MAGIC_NUMBER)
    (hsz : leToNat ((f.drop 4).take 2) = 24)
    (hver : (f.drop 6).take 2 = [1, 0]) :
    read_from_stream f =
      (.ok { provider := leToNat ((f.drop 8).take 1)
           , session := leToNat ((f.drop 9).take 8)
           , content_type := leToNat ((f.drop 17).take 1)
           , accept_type := leToNat ((f.drop 18).take 1)
           , auth_type := leToNat ((f.drop 19).take 1)
           , body_len := leToNat ((f.drop 20).take 4)
           , auth_len := leToNat ((f.drop 24).take 2)
           , opcode := leToNat ((f.drop 26).take 2)
           , status := leToNat ((f.drop 28).take 2) }, []) := by
  rw [read_from_stream_of_goodMagic (by omega) hm]
  have h2 : 2 ≤ (f.drop 4).length := by
    simp only [List.length_drop]; omega
  rw [decodeAfterMagic_of_le h2, hsz]
  have d6 : (f.drop 4).drop 2 = f.drop 6 := by
    rw [List.drop_drop]
  rw [d6]
  have h24 : 24 ≤ (f.drop 6).length := by
    simp only [List.length_drop]; omega
  rw [decodeAfterSize_24 h24]
  have ht24 : (f.drop 6).take 24 = f.drop 6 :=
    List.take_of_length_le (by simp only [List.length_drop]; omega)
  have hd24 : (f.drop 6).drop 24 = [] :=
    List.drop_of_length_le (by simp only [List.length_drop]; omega)
  rw [ht24, hd24]
  have hcons : f.drop 6 = 1 :: 0 :: f.drop 8 := by
    have hsplit := (List.take_append_drop 2 (f.drop 6)).symm
    have d8 : (f.drop 6).drop 2 = f.drop 8 := by
      rw [List.drop_drop]
    rw [hver, d8] at hsplit
    exact hsplit
  rw [hcons]
  have h22 : 22 ≤ (f.drop 8).length := by
    simp only [List.length_drop]; omega
  rw [decodeFields_of_le h22]
  have e9 : (f.drop 8).drop 1 = f.drop 9 := by rw [List.drop_drop]
  have e17 : (f.drop 8).drop 9 = f.drop 17 := by rw [List.drop_drop]
  have e18 : (f.drop 8).drop 10 = f.drop 18 := by rw [List.drop_drop]
  have e19 : (f.drop 8).drop 11 = f.drop 19 := by rw [List.drop_drop]
  have e20 : (f.drop 8).drop 12 = f.drop 20 := by rw [List.drop_drop]
  have e24 : (f.drop 8).drop 16 = f.drop 24 := by rw [List.drop_drop]
  have e26 : (f.drop 8).drop 18 = f.drop 26 := by rw [List.drop_drop]
  have e28 : (f.drop 8).drop 20 = f.drop 28 := by rw [List.drop_drop]
  rw [e9, e17, e18, e19, e20, e24, e26, e28]

/-- C8 witness: the completeness theorem applied to a concrete well-formed
frame with arbitrary-looking field bytes. -/
theorem claim_C8_decode_wellformed_witness :
    read_from_stream [16, 167, 192, 94, 24, 0, 1, 0, 7, 1, 2, 3, 4, 5, 6, 7,
        8, 11, 12, 13, 200, 1, 0, 0, 5, 0, 9, 0, 3, 1] =
      (.ok (WireHeader.mk 7 578437695752307201 11 12 13 456 5 9 259), []) := by
  have h := claim_C8_decode_wellformed
    [16, 167, 192, 94, 24, 0, 1, 0, 7, 1, 2, 3, 4, 5, 6, 7, 8, 11, 12, 13,
      200, 1, 0, 0, 5, 0, 9, 0, 3, 1]
    (by decide) (by decide) (by decide) (by decide)
  exact h.trans (by decide)
